import Mathlib

/-!
Shallow embedding of the rustywin X11 filtering proxy (src/analyze.rs,
src/ipc.rs, src/socket.rs, src/socketloop.rs) and proofs about the claims
of the specification.

Bytes are modelled as natural numbers (values below 256 on the wire);
machine arithmetic that can wrap in the source (u16/u32 multiplications and
subtractions inside the nom take counts) is modelled with explicit
modular arithmetic, matching release-mode (wrapping) semantics.
The nom combinator library distinguishes recoverable errors from
incomplete input; both are Err values for the callers in this code base,
and alt only falls through to its next branch on a recoverable error.
-/

namespace Rustywin

/-- Error side of a nom parser result: Incomplete models
Err::Incomplete(Needed), Error models a recoverable parse error
(for this code, only a tag mismatch). -/
inductive NomErr where
  | Incomplete : NomErr
  | Error : NomErr
deriving DecidableEq

/-- The framed request header of analyze.rs: opcode, data byte, total
length in bytes as recorded by the parser, and the bytes the parser
consumed after the header. -/
structure Request where
  opcode : Nat
  datab : Nat
  length : Nat
  data : List Nat
deriving DecidableEq

/-- nom le_u8: one byte, little-endian (trivially). -/
def le_u8 : List Nat → Except NomErr (List Nat × Nat)
  | [] => .error .Incomplete
  | b :: rest => .ok (rest, b)

/-- nom le_u16: two bytes, little-endian. -/
def le_u16 : List Nat → Except NomErr (List Nat × Nat)
  | a :: b :: rest => .ok (rest, a + 256 * b)
  | _ => .error .Incomplete

/-- nom le_u32: four bytes, little-endian. -/
def le_u32 : List Nat → Except NomErr (List Nat × Nat)
  | a :: b :: c :: d :: rest =>
      .ok (rest, a + 256 * b + 65536 * c + 16777216 * d)
  | _ => .error .Incomplete

/-- nom le_u24: three bytes, little-endian. -/
def le_u24 : List Nat → Except NomErr (List Nat × Nat)
  | a :: b :: c :: rest => .ok (rest, a + 256 * b + 65536 * c)
  | _ => .error .Incomplete

/-- nom tag for the two zero bytes of the BIG-REQUESTS header
(tag compares the available prefix: shorter matching input is
Incomplete, a mismatch is a recoverable Error). -/
def tag00 : List Nat → Except NomErr (List Nat × Unit)
  | [] => .error .Incomplete
  | [a] => if a = 0 then .error .Incomplete else .error .Error
  | a :: b :: rest =>
      if a = 0 ∧ b = 0 then .ok (rest, ()) else .error .Error

/-- nom take: n bytes if available, otherwise Incomplete. -/
def takeBytes (n : Nat) (i : List Nat) : Except NomErr (List Nat × List Nat) :=
  if n ≤ i.length then .ok (i.drop n, i.take n) else .error .Incomplete

/-- Sequencing of nom parsers inside a do_parse chain: thread the
remaining input on success, abort on the first failure. -/
def pbind {α β : Type} (r : Except NomErr (List Nat × α))
    (f : List Nat → α → Except NomErr (List Nat × β)) :
    Except NomErr (List Nat × β) :=
  match r with
  | .error e => .error e
  | .ok (i, a) => f i a

/-- Sequencing a failed parse propagates the failure. -/
lemma pbind_error {α β : Type} (e : NomErr)
    (f : List Nat → α → Except NomErr (List Nat × β)) :
    pbind (.error e) f = .error e := rfl

/-- Sequencing a successful parse continues with its remaining input and
value. -/
lemma pbind_ok {α β : Type} (i : List Nat) (a : α)
    (f : List Nat → α → Except NomErr (List Nat × β)) :
    pbind (.ok (i, a)) f = f i a := rfl

/-- A take whose count fits the input succeeds, consuming the count. -/
lemma takeBytes_of_le (n : Nat) (i : List Nat) (h : n ≤ i.length) :
    takeBytes n i = .ok (i.drop n, i.take n) := by
  unfold takeBytes
  rw [if_pos h]

/-- A take whose count exceeds the input reports Incomplete. -/
lemma takeBytes_of_gt (n : Nat) (i : List Nat) (h : i.length < n) :
    takeBytes n i = .error .Incomplete := by
  unfold takeBytes
  rw [if_neg (by omega)]

/-- BIG-REQUESTS branch of the request parser in analyze.rs:
opcode, data byte, a zero 16-bit length (tag), a 32-bit unit count, then
take of (length_4b * 4 - (4 + 2 + 1 + 1)) bytes, where the
multiplication and the subtraction are wrapping u32 operations. The
recorded length is the wrapping u32 product 4 * length_4b. -/
def request_big (i : List Nat) : Except NomErr (List Nat × Request) :=
  pbind (le_u8 i) (fun i1 op =>
  pbind (le_u8 i1) (fun i2 db =>
  pbind (tag00 i2) (fun i4 _length_zero =>
  pbind (le_u32 i4) (fun i8 length_4b =>
  pbind (takeBytes (((length_4b * 4) % 4294967296 + 4294967288) % 4294967296)
      i8)
    (fun rem data =>
      .ok (rem, { opcode := op, datab := db,
                  length := (4 * length_4b) % 4294967296, data := data }))))))

/-- Normal branch of the request parser in analyze.rs: opcode, data byte,
16-bit length in 4-byte units, then take of (length_4b * 4 - (2 + 1 + 1))
bytes, where the multiplication and subtraction are wrapping u16
operations. The recorded length is 4 * length_4b widened to u32
(no wrap). -/
def request_normal (i : List Nat) : Except NomErr (List Nat × Request) :=
  pbind (le_u8 i) (fun i1 op =>
  pbind (le_u8 i1) (fun i2 db =>
  pbind (le_u16 i2) (fun i4 length_4b =>
  pbind (takeBytes (((length_4b * 4) % 65536 + 65532) % 65536) i4)
    (fun rem data =>
      .ok (rem, { opcode := op, datab := db,
                  length := 4 * length_4b, data := data })))))

/-- The request parser of analyze.rs: alt of the BIG-REQUESTS branch and
the normal branch. nom alt only tries the next branch on a recoverable
error; Incomplete is returned as is. -/
def request (i : List Nat) : Except NomErr (List Nat × Request) :=
  match request_big i with
  | .error .Error => request_normal i
  | r => r

/-- A successful BIG-REQUESTS branch is the result of the alt. -/
lemma request_of_big_ok (i rest : List Nat) (hdr : Request)
    (h : request_big i = .ok (rest, hdr)) :
    request i = .ok (rest, hdr) := by
  unfold request
  rw [h]

/-- An Incomplete BIG-REQUESTS branch is returned as is by the alt
(nom alt does not fall through on Incomplete). -/
lemma request_of_big_incomplete (i : List Nat)
    (h : request_big i = .error .Incomplete) :
    request i = .error .Incomplete := by
  unfold request
  rw [h]

/-- A recoverable error in the BIG-REQUESTS branch makes the alt try the
normal branch. -/
lemma request_of_big_error (i : List Nat)
    (h : request_big i = .error .Error) :
    request i = request_normal i := by
  unfold request
  rw [h]

/-- The recognized opcodes of analyze.rs. -/
inductive Opcode where
  | ChangeWindowAttributes : Opcode
  | InternAtom : Opcode
  | ChangeProperty : Opcode
  | GetProperty : Opcode
  | GrabButton : Opcode
  | QueryExtension : Opcode
deriving DecidableEq

/-- enum_from_primitive conversion of the Opcode enum (discriminants
0x02, 0x10, 0x12, 0x14, 0x1C, 0x62). -/
def Opcode.from_u8 (n : Nat) : Option Opcode :=
  if n = 2 then some .ChangeWindowAttributes
  else if n = 16 then some .InternAtom
  else if n = 18 then some .ChangeProperty
  else if n = 20 then some .GetProperty
  else if n = 28 then some .GrabButton
  else if n = 98 then some .QueryExtension
  else none

/-- Decoded InternAtom body. The name is kept as raw bytes; the source
only lossily UTF-8 decodes it for logging. -/
structure InternAtom where
  only_if_exists : Bool
  name_length : Nat
  name : List Nat
deriving DecidableEq

/-- Decoded GetProperty body. -/
structure GetProperty where
  delete : Bool
  window : Nat
  property : Nat
  atom_prop_type : Nat
  offset : Nat
  length : Nat
deriving DecidableEq

/-- Decoded QueryExtension body (name kept as raw bytes). -/
structure QueryExtension where
  name_length : Nat
  name : List Nat
deriving DecidableEq

/-- Decoded ChangeProperty body. -/
structure ChangeProperty where
  mode : Nat
  window : Nat
  property : Nat
  prop_type : Nat
  format : Nat
  data_length : Nat
  data : List Nat
deriving DecidableEq

/-- Decoded GrabButton body (all fields after the window are ignored by
the source, which only takes them from the input). -/
structure GrabButton where
  owner_events : Nat
  window : Nat
deriving DecidableEq

/-- The intern_atom parser of analyze.rs. -/
def intern_atom (i : List Nat) : Except NomErr (List Nat × InternAtom) :=
  pbind (le_u8 i) (fun i1 _opcode =>
  pbind (le_u8 i1) (fun i2 only_if_exists =>
  pbind (le_u16 i2) (fun i3 _length =>
  pbind (le_u16 i3) (fun i4 name_length =>
  pbind (le_u16 i4) (fun i5 _pad =>
  pbind (takeBytes name_length i5) (fun i6 name =>
      .ok (i6, { only_if_exists := only_if_exists = 1,
                 name_length := name_length, name := name })))))))

/-- The getproperty parser of analyze.rs. -/
def getproperty (i : List Nat) : Except NomErr (List Nat × GetProperty) :=
  pbind (le_u8 i) (fun i1 _opcode =>
  pbind (le_u8 i1) (fun i2 delete =>
  pbind (le_u16 i2) (fun i3 _length =>
  pbind (le_u32 i3) (fun i4 window =>
  pbind (le_u32 i4) (fun i5 property =>
  pbind (le_u32 i5) (fun i6 atom_prop_type =>
  pbind (le_u32 i6) (fun i7 offset =>
  pbind (le_u32 i7) (fun i8 length =>
      .ok (i8, { delete := delete = 1, window := window,
                 property := property, atom_prop_type := atom_prop_type,
                 offset := offset, length := length })))))))))

/-- The queryextension parser of analyze.rs. -/
def queryextension (i : List Nat) :
    Except NomErr (List Nat × QueryExtension) :=
  pbind (le_u8 i) (fun i1 _opcode =>
  pbind (le_u8 i1) (fun i2 _dummy =>
  pbind (le_u16 i2) (fun i3 _length =>
  pbind (le_u16 i3) (fun i4 name_length =>
  pbind (le_u16 i4) (fun i5 _pad =>
  pbind (takeBytes name_length i5) (fun i6 name =>
      .ok (i6, { name_length := name_length, name := name })))))))

/-- The changeproperty parser of analyze.rs. -/
def changeproperty (i : List Nat) :
    Except NomErr (List Nat × ChangeProperty) :=
  pbind (le_u8 i) (fun i1 _opcode =>
  pbind (le_u8 i1) (fun i2 mode =>
  pbind (le_u16 i2) (fun i3 _length =>
  pbind (le_u32 i3) (fun i4 window =>
  pbind (le_u32 i4) (fun i5 property =>
  pbind (le_u32 i5) (fun i6 prop_type =>
  pbind (le_u8 i6) (fun i7 prop_format =>
  pbind (le_u24 i7) (fun i8 _pad =>
  pbind (le_u32 i8) (fun i9 data_length =>
  pbind (takeBytes data_length i9) (fun i10 data =>
      .ok (i10, { mode := mode, window := window, property := property,
                  prop_type := prop_type, format := prop_format,
                  data_length := data_length, data := data })))))))))))

/-- The grabbutton parser of analyze.rs. The take count is the wrapping
u16 value of length - 4 + 2 + 2, evaluated left to right. -/
def grabbutton (i : List Nat) : Except NomErr (List Nat × GrabButton) :=
  pbind (le_u8 i) (fun i1 _opcode =>
  pbind (le_u8 i1) (fun i2 owner_events =>
  pbind (le_u16 i2) (fun i3 length =>
  pbind (le_u32 i3) (fun i4 window =>
  pbind (takeBytes ((((length + 65532) % 65536 + 2) % 65536 + 2) % 65536)
      i4)
    (fun i5 _data =>
      .ok (i5, { owner_events := owner_events, window := window }))))))

/-- ParseError of analyze.rs (quick_error enum). -/
inductive ParseError where
  | ParseFail : ParseError
  | InconsistentLength : ParseError
deriving DecidableEq

/-- Outcome of analyze.rs. -/
inductive Outcome where
  | Allowed : Outcome
  | Denied : Outcome
deriving DecidableEq

/-- analyze_request_opcode of analyze.rs: dispatch on the recognized
opcode, run the body decoder (whose result is only printed: success and
failure both continue), and return Ok(Allowed) in every arm, including
the unrecognized-opcode arm. -/
def analyze_request_opcode (header : Request) (data : List Nat) :
    Except ParseError Outcome :=
  match Opcode.from_u8 header.opcode with
  | some .InternAtom =>
      match intern_atom data with
      | .ok _ => .ok .Allowed
      | .error _ => .ok .Allowed
  | some .GetProperty =>
      match getproperty data with
      | .ok _ => .ok .Allowed
      | .error _ => .ok .Allowed
  | some .QueryExtension =>
      match queryextension data with
      | .ok _ => .ok .Allowed
      | .error _ => .ok .Allowed
  | some .ChangeProperty =>
      match changeproperty data with
      | .ok _ => .ok .Allowed
      | .error _ => .ok .Allowed
  | some .GrabButton =>
      match grabbutton data with
      | .ok _ => .ok .Allowed
      | .error _ => .ok .Allowed
  | none => .ok .Allowed
  | some _ => .ok .Allowed

/-- One pass of the filter_buffer loop of analyze.rs, with explicit fuel
standing in for the (unreachable in this code) diverging paths. On a
parse error the remaining work buffer is appended to the rejected output
and the loop stops; likewise when the recorded length exceeds the
remaining buffer. Otherwise the request bytes go to the accepted or
rejected output according to the decision and the work buffer advances
by the recorded length (the source only advances when the decision is
Ok, which it always is). -/
def filter_go : Nat → List Nat → List Nat → List Nat → List Nat × List Nat
  | 0, _work, acc, rej => (acc, rej)
  | fuel + 1, work, acc, rej =>
    match request work with
    | .error _ => (acc, rej ++ work)
    | .ok (_, hdr) =>
      if work.length < hdr.length then (acc, rej ++ work)
      else
        match analyze_request_opcode hdr work with
        | .ok .Allowed =>
            filter_go fuel (work.drop hdr.length)
              (acc ++ work.take hdr.length) rej
        | .ok .Denied =>
            filter_go fuel (work.drop hdr.length) acc
              (rej ++ work.take hdr.length)
        | .error _ =>
            filter_go fuel work (acc ++ work.take hdr.length) rej

/-- filter_buffer of analyze.rs: run the loop over the whole buffer
(an empty buffer never enters the loop). The fuel length + 1 is enough
for every terminating run of the source loop; see the fuel lemmas. -/
def filter_buffer (buffer : List Nat) : List Nat × List Nat :=
  if buffer.length = 0 then ([], [])
  else filter_go (buffer.length + 1) buffer [] []

/-- process_pid_message of ipc.rs: command 0 pushes the pid onto the
vector unless it is already present; command 1 retains the elements
different from the pid; any other command leaves the vector unchanged. -/
def process_pid_message (cmd : Nat) (pid : Nat) (pids : List Nat) :
    List Nat :=
  if cmd = 0 then
    if pids.contains pid then pids else pids ++ [pid]
  else if cmd = 1 then
    pids.filter (fun x => x ≠ pid)
  else pids

/-- The client-to-server slice handling of client_message_loop in
socketloop.rs (the body of the if read > 0 block): buffer is the whole
fixed-size read array, read the number of bytes the read returned.
When the peer pid is NOT contained in the pid vector, the slice is run
through filter_buffer, the accepted component becomes the upstream
write, and when a dump file is present the WHOLE buffer array is
written to it (the source writes buffer, not the rejected slice).
When the peer pid is contained in the vector the slice is written
upstream verbatim and the dump file is not touched. Returns
(bytes written upstream, bytes written to the dump file). -/
def client_message_step (pids : List Nat) (client_pid : Nat)
    (buffer : List Nat) (read : Nat) (hasDump : Bool) :
    List Nat × List Nat :=
  let write_buff := buffer.take read
  if ¬ pids.contains client_pid then
    let filtered_buffer_pair := filter_buffer write_buff
    (filtered_buffer_pair.1, if hasDump then buffer else [])
  else
    (write_buff, [])

/-- Result of the remove_file call in cleanup_old_sockets, as the source
distinguishes it: success, a NotFound error, or any other error. -/
inductive UnlinkResult where
  | ok : UnlinkResult
  | notFound : UnlinkResult
  | otherErr : UnlinkResult
deriving DecidableEq

/-- Environment for cleanup_old_sockets: the liveness probe (true when
kill(pid, 0) returns 0, that is, the pid names a live process) and the
outcome of unlinking a path. -/
structure CleanupEnv where
  alive : Int → Bool
  unlink : String → UnlinkResult

/-- The value of a decimal digit character, none for any other
character. -/
def digitVal (c : Char) : Option Nat :=
  if '0' ≤ c ∧ c ≤ '9' then some (c.toNat - 48) else none

/-- Accumulate decimal digits left to right; fail on a non-digit. -/
def parseDigitsAux : List Char → Nat → Option Nat
  | [], acc => some acc
  | c :: cs, acc =>
      match digitVal c with
      | some d => parseDigitsAux cs (acc * 10 + d)
      | none => none

/-- A non-empty all-digit sequence as a natural number. -/
def parseNatDigits : List Char → Option Nat
  | [] => none
  | cs => parseDigitsAux cs 0

/-- The pid token parse of cleanup_old_sockets
(pid.parse with target type libc pid_t, an i32): an optional sign
followed by at least one digit, within the i32 range. -/
def parsePid (s : String) : Option Int :=
  match s.data with
  | [] => none
  | c :: cs =>
      if c = '-' then
        (parseNatDigits cs).bind (fun n =>
          if n ≤ 2147483648 then some (-(n : Int)) else none)
      else if c = '+' then
        (parseNatDigits cs).bind (fun n =>
          if n ≤ 2147483647 then some ((n : Int)) else none)
      else
        (parseNatDigits (c :: cs)).bind (fun n =>
          if n ≤ 2147483647 then some ((n : Int)) else none)

/-- The line-scanning loop of cleanup_old_sockets in socket.rs over the
already-read lines of the registry, each line given as its
whitespace-separated tokens. A line with fewer than two tokens makes
next_tuple return None and the loop break: the remaining lines are
dropped. A line whose pid token does not parse is skipped (continue).
Otherwise, a live pid keeps the line; a dead pid attempts the unlink
(recorded in the second component) and keeps the line only when the
unlink failed with an error other than NotFound. Returns
(lines kept for the rewritten registry, paths whose unlink was
attempted). -/
def cleanup_old_sockets (env : CleanupEnv) :
    List (List String) → List (List String) × List String
  | [] => ([], [])
  | line :: rest =>
    match line with
    | t0 :: t1 :: _ =>
      match parsePid t0 with
      | none => cleanup_old_sockets env rest
      | some pid =>
        if env.alive pid then
          let r := cleanup_old_sockets env rest
          (line :: r.1, r.2)
        else
          let r := cleanup_old_sockets env rest
          match env.unlink t1 with
          | .otherErr => (line :: r.1, t1 :: r.2)
          | _ => (r.1, t1 :: r.2)
    | _ => ([], [])

/-- The pid of a registry line as cleanup_old_sockets sees it: the parse
of the first token, provided the line splits into at least two tokens. -/
def linePid : List String → Option Int
  | t0 :: _ :: _ => parsePid t0
  | _ => none

/-- The socket path of a registry line: its second token. -/
def linePath : List String → String
  | _ :: t1 :: _ => t1
  | _ => ""

/-- A registry line is kept by cleanup_old_sockets exactly when its pid
is alive, or it is dead but the unlink of its path failed with an error
other than NotFound. -/
def keepLine (env : CleanupEnv) (l : List String) : Bool :=
  match linePid l with
  | some p => env.alive p || (env.unlink (linePath l) == .otherErr)
  | none => false

/-- A registry line whose pid parses and is dead (the null-signal probe
fails): these are the lines whose socket path gets an unlink attempt. -/
def deadLine (env : CleanupEnv) (l : List String) : Bool :=
  match linePid l with
  | some p => ! env.alive p
  | none => false

/-- Helper: the baseline policy allows every request, whatever the
opcode and whether or not the body decodes. -/
lemma analyze_allowed (header : Request) (data : List Nat) :
    analyze_request_opcode header data = .ok .Allowed := by
  unfold analyze_request_opcode
  cases hop : Opcode.from_u8 header.opcode with
  | none => rfl
  | some op =>
    cases op
    case InternAtom => cases intern_atom data <;> rfl
    case GetProperty => cases getproperty data <;> rfl
    case QueryExtension => cases queryextension data <;> rfl
    case ChangeProperty => cases changeproperty data <;> rfl
    case GrabButton => cases grabbutton data <;> rfl
    case ChangeWindowAttributes => rfl

/-- C6: the baseline policy decision is Allow for every framed request:
recognized opcodes, unrecognized opcodes, and recognized opcodes whose
body fails to decode all yield Ok Allowed. -/
theorem C6_policy_always_allow (header : Request) (data : List Nat) :
    analyze_request_opcode header data = .ok .Allowed :=
  analyze_allowed header data

/-- C7: the filtered-PID set laws of process_pid_message: command 0 adds
the pid and is a no-op when it is already present (and never introduces
a duplicate of it); command 1 removes the pid and is a no-op when it is
absent. -/
theorem C7_pid_set_laws (p : Nat) (s : List Nat) :
    (p ∈ s → process_pid_message 0 p s = s) ∧
    (p ∉ s → process_pid_message 0 p s = s ++ [p]) ∧
    p ∈ process_pid_message 0 p s ∧
    (s.count p ≤ 1 → (process_pid_message 0 p s).count p ≤ 1) ∧
    process_pid_message 1 p s = s.filter (fun x => x ≠ p) ∧
    p ∉ process_pid_message 1 p s ∧
    (p ∉ s → process_pid_message 1 p s = s) := by
  refine ⟨?_, ?_, ?_, ?_, ?_, ?_, ?_⟩
  · intro hp
    simp [process_pid_message, hp]
  · intro hp
    simp [process_pid_message, hp]
  · by_cases hp : p ∈ s <;> simp [process_pid_message, hp]
  · intro hc
    by_cases hp : p ∈ s
    · simpa [process_pid_message, hp] using hc
    · have hz : s.count p = 0 := List.count_eq_zero_of_not_mem hp
      simp [process_pid_message, hp, List.count_append, hz]
  · simp [process_pid_message]
  · simp [process_pid_message]
  · intro hp
    simp [process_pid_message]
    intro x hx hxp
    exact hp (hxp ▸ hx)

/-- Witness for the C7 laws at concrete inputs: adding 4242 to a set
not containing it appends it, and removing it afterwards restores the
set. -/
theorem C7_pid_set_laws_witness :
    process_pid_message 0 4242 [1] = [1, 4242] ∧
    process_pid_message 1 4242 [1, 4242] = [1] := by
  constructor
  · exact (C7_pid_set_laws 4242 [1]).2.1 (by decide)
  · rw [(C7_pid_set_laws 4242 [1, 4242]).2.2.2.2.1]
    decide

/-- C4: a header whose 16-bit length field is zero is decoded as
BIG-REQUESTS: the 32-bit unit count sits at bytes 4 to 7, the body
begins at byte 8, the recorded total length is 4 times the unit count
including the 8-byte header, and exactly that many bytes are consumed
(the remaining input is the body minus the consumed part). Stated for
unit counts in the wrap-free range: at least 2 units (the header
itself) and below 2 to the 30th, where the u32 arithmetic of the
source cannot wrap. -/
theorem C4_bigrequests (op db e0 e1 e2 e3 L : Nat) (body : List Nat)
    (hL : L = e0 + 256 * e1 + 65536 * e2 + 16777216 * e3)
    (h2 : 2 ≤ L) (h30 : L < 1073741824)
    (hlen : 4 * L ≤ 8 + body.length) :
    request (op :: db :: 0 :: 0 :: e0 :: e1 :: e2 :: e3 :: body) =
      .ok (body.drop (4 * L - 8),
        { opcode := op, datab := db, length := 4 * L,
          data := body.take (4 * L - 8) }) := by
  have hbig : request_big (op :: db :: 0 :: 0 :: e0 :: e1 :: e2 :: e3 :: body) =
      .ok (body.drop (4 * L - 8),
        { opcode := op, datab := db, length := 4 * L,
          data := body.take (4 * L - 8) }) := by
    unfold request_big
    rw [show le_u8 (op :: db :: 0 :: 0 :: e0 :: e1 :: e2 :: e3 :: body) =
          .ok (db :: 0 :: 0 :: e0 :: e1 :: e2 :: e3 :: body, op) from rfl]
    rw [pbind_ok]
    rw [show le_u8 (db :: 0 :: 0 :: e0 :: e1 :: e2 :: e3 :: body) =
          .ok (0 :: 0 :: e0 :: e1 :: e2 :: e3 :: body, db) from rfl]
    rw [pbind_ok]
    rw [show tag00 (0 :: 0 :: e0 :: e1 :: e2 :: e3 :: body) =
          .ok (e0 :: e1 :: e2 :: e3 :: body, ()) from rfl]
    rw [pbind_ok]
    rw [show le_u32 (e0 :: e1 :: e2 :: e3 :: body) =
          .ok (body, e0 + 256 * e1 + 65536 * e2 + 16777216 * e3) from rfl]
    rw [pbind_ok]
    rw [← hL]
    have ht : ((L * 4) % 4294967296 + 4294967288) % 4294967296 = 4 * L - 8 := by
      omega
    rw [ht]
    rw [takeBytes_of_le (4 * L - 8) body (by omega)]
    rw [pbind_ok]
    have hlen32 : (4 * L) % 4294967296 = 4 * L := Nat.mod_eq_of_lt (by omega)
    rw [hlen32]
  exact request_of_big_ok _ _ _ hbig

/-- Witness for C4 at the concrete BIG-REQUESTS scenario of the
specification: opcode 0x12, extended unit count 256, so the framer
consumes exactly 1024 bytes (8 header bytes plus 1016 body bytes) and
records total length 1024. -/
theorem C4_bigrequests_witness :
    request (18 :: 0 :: 0 :: 0 :: 0 :: 1 :: 0 :: 0 :: List.replicate 1016 7) =
      .ok ([], { opcode := 18, datab := 0, length := 1024,
                 data := List.replicate 1016 7 }) := by
  have h := C4_bigrequests 18 0 0 1 0 0 256 (List.replicate 1016 7)
    (by norm_num) (by norm_num) (by norm_num)
    (by rw [List.length_replicate])
  rw [show (4 : Nat) * 256 - 8 = 1016 from by norm_num] at h
  rw [List.drop_replicate, List.take_replicate] at h
  rw [show List.replicate (1016 - 1016) 7 = ([] : List Nat) from rfl] at h
  rw [show min 1016 1016 = 1016 from rfl] at h
  exact h

/-- C5 counterexample: the claim says a zero extended length yields
Err(Malformed) and an overflowing extended byte count is malformed.
On the code, the zero extended length makes the wrapping u32 take count
2 to the 32nd minus 8, so the parser reports Incomplete, which is a
different error from the recoverable (malformed) one; and an extended
unit count of 2 to the 30th plus 3 wraps to a 12-byte take and parses
successfully instead of being rejected. -/
theorem C5_cex :
    request [1, 0, 0, 0, 0, 0, 0, 0] = .error .Incomplete ∧
    NomErr.Incomplete ≠ NomErr.Error ∧
    request [1, 0, 0, 0, 3, 0, 0, 64, 9, 9, 9, 9] =
      .ok ([], { opcode := 1, datab := 0, length := 12,
                 data := [9, 9, 9, 9] }) :=
  ⟨rfl, by decide, rfl⟩

/-- C5 amended: a header with zero 16-bit length and zero extended
32-bit length makes request fail with Incomplete (the wrapping
subtraction asks for 2 to the 32nd minus 8 bytes, more than any real
buffer holds), so no bytes are consumed and the caller rejects the
remainder; an extended length whose byte count overflows 32 bits is not
detected as malformed: the count wraps modulo 2 to the 32nd and framing
proceeds with the wrapped count, as the concrete 2 to the 30th plus 3
unit example shows. -/
theorem C5_zero_extended (op db : Nat) (body : List Nat)
    (hlen : body.length < 4294967288) :
    request (op :: db :: 0 :: 0 :: 0 :: 0 :: 0 :: 0 :: body) =
      .error .Incomplete ∧
    request [1, 0, 0, 0, 3, 0, 0, 64, 9, 9, 9, 9] =
      .ok ([], { opcode := 1, datab := 0, length := 12,
                 data := [9, 9, 9, 9] }) := by
  refine ⟨?_, rfl⟩
  have hbig : request_big (op :: db :: 0 :: 0 :: 0 :: 0 :: 0 :: 0 :: body) =
      .error .Incomplete := by
    unfold request_big
    rw [show le_u8 (op :: db :: 0 :: 0 :: 0 :: 0 :: 0 :: 0 :: body) =
          .ok (db :: 0 :: 0 :: 0 :: 0 :: 0 :: 0 :: body, op) from rfl]
    rw [pbind_ok]
    rw [show le_u8 (db :: 0 :: 0 :: 0 :: 0 :: 0 :: 0 :: body) =
          .ok (0 :: 0 :: 0 :: 0 :: 0 :: 0 :: body, db) from rfl]
    rw [pbind_ok]
    rw [show tag00 (0 :: 0 :: 0 :: 0 :: 0 :: 0 :: body) =
          .ok (0 :: 0 :: 0 :: 0 :: body, ()) from rfl]
    rw [pbind_ok]
    rw [show le_u32 (0 :: 0 :: 0 :: 0 :: body) = .ok (body, 0) from rfl]
    rw [pbind_ok]
    rw [show ((0 * 4) % 4294967296 + 4294967288) % 4294967296 = 4294967288
          from by norm_num]
    rw [takeBytes_of_gt 4294967288 body (by omega)]
    rw [pbind_error]
  exact request_of_big_incomplete _ hbig

/-- Witness for the C5 amended statement at the empty body. -/
theorem C5_zero_extended_witness :
    request [1, 0, 0, 0, 0, 0, 0, 0] = .error .Incomplete ∧
    request [1, 0, 0, 0, 3, 0, 0, 64, 9, 9, 9, 9] =
      .ok ([], { opcode := 1, datab := 0, length := 12,
                 data := [9, 9, 9, 9] }) :=
  C5_zero_extended 1 0 [] (by decide)

/-- Reading one byte from a nonempty input. -/
lemma le_u8_cons (b : Nat) (r : List Nat) : le_u8 (b :: r) = .ok (r, b) := rfl

/-- Reading a little-endian u16 from two available bytes. -/
lemma le_u16_cons (a b : Nat) (r : List Nat) :
    le_u16 (a :: b :: r) = .ok (r, a + 256 * b) := rfl

/-- Reading a little-endian u32 from four available bytes. -/
lemma le_u32_cons (a b c d : Nat) (r : List Nat) :
    le_u32 (a :: b :: c :: d :: r) =
      .ok (r, a + 256 * b + 65536 * c + 16777216 * d) := rfl

/-- The zero tag matches two zero bytes. -/
lemma tag00_zeros (r : List Nat) : tag00 (0 :: 0 :: r) = .ok (r, ()) := rfl

/-- The zero tag mismatches when the two bytes are not both zero. -/
lemma tag00_ne (a b : Nat) (r : List Nat) (h : ¬(a = 0 ∧ b = 0)) :
    tag00 (a :: b :: r) = .error .Error := by
  show (if a = 0 ∧ b = 0 then (Except.ok (r, ()) : Except NomErr (List Nat × Unit))
        else .error .Error) = .error .Error
  rw [if_neg h]

/-- Unfolding of the BIG-REQUESTS branch past the two one-byte reads. -/
lemma request_big_cons (op db a b : Nat) (r : List Nat) :
    request_big (op :: db :: a :: b :: r) =
      pbind (tag00 (a :: b :: r)) (fun i4 _length_zero =>
      pbind (le_u32 i4) (fun i8 length_4b =>
      pbind (takeBytes
          (((length_4b * 4) % 4294967296 + 4294967288) % 4294967296) i8)
        (fun rem data =>
          .ok (rem, { opcode := op, datab := db,
                      length := (4 * length_4b) % 4294967296,
                      data := data })))) := rfl

/-- Unfolding of the normal branch past the two one-byte reads. -/
lemma request_normal_cons (op db : Nat) (r : List Nat) :
    request_normal (op :: db :: r) =
      pbind (le_u16 r) (fun i4 length_4b =>
      pbind (takeBytes (((length_4b * 4) % 65536 + 65532) % 65536) i4)
        (fun rem data =>
          .ok (rem, { opcode := op, datab := db,
                      length := 4 * length_4b, data := data }))) := rfl

/-- Helper: a successfully framed request whose recorded length fits the
buffer has length at least 4 (at least 8 in the BIG-REQUESTS branch),
provided the buffer is shorter than 2 to the 32nd minus 8 bytes so that
the wrapping take counts cannot be satisfied by a wrapped-to-zero
length. -/
lemma frame_min (work rest : List Nat) (hdr : Request)
    (hreq : request work = .ok (rest, hdr))
    (hle : hdr.length ≤ work.length)
    (hlen : work.length + 16 < 4294967296) :
    4 ≤ hdr.length := by
  rcases work with _ | ⟨op, _ | ⟨db, _ | ⟨a, _ | ⟨b, rest4⟩⟩⟩⟩
  · rw [request_of_big_incomplete [] rfl] at hreq
    exact Except.noConfusion hreq
  · rw [request_of_big_incomplete [op] rfl] at hreq
    exact Except.noConfusion hreq
  · rw [request_of_big_incomplete [op, db] rfl] at hreq
    exact Except.noConfusion hreq
  · by_cases ha : a = 0
    · subst ha
      rw [request_of_big_incomplete [op, db, 0] rfl] at hreq
      exact Except.noConfusion hreq
    · have hbig : request_big [op, db, a] = .error .Error := by
        rw [show request_big [op, db, a] =
              pbind (tag00 [a]) (fun i4 _length_zero =>
              pbind (le_u32 i4) (fun i8 length_4b =>
              pbind (takeBytes
                  (((length_4b * 4) % 4294967296 + 4294967288) %
                    4294967296) i8)
                (fun rem data =>
                  .ok (rem, { opcode := op, datab := db,
                              length := (4 * length_4b) % 4294967296,
                              data := data })))) from rfl]
        rw [show tag00 [a] = .error .Error from by
              show (if a = 0 then (Except.error NomErr.Incomplete :
                      Except NomErr (List Nat × Unit))
                    else .error .Error) = .error .Error
              rw [if_neg ha]]
        rw [pbind_error]
      rw [request_of_big_error _ hbig] at hreq
      rw [show request_normal [op, db, a] = .error .Incomplete from rfl]
        at hreq
      exact Except.noConfusion hreq
  · by_cases hab : a = 0 ∧ b = 0
    · obtain ⟨ha, hb⟩ := hab
      subst ha
      subst hb
      rcases rest4 with _ | ⟨e0, _ | ⟨e1, _ | ⟨e2, _ | ⟨e3, rest8⟩⟩⟩⟩
      · rw [request_of_big_incomplete (op :: db :: 0 :: 0 :: []) rfl]
          at hreq
        exact Except.noConfusion hreq
      · rw [request_of_big_incomplete (op :: db :: 0 :: 0 :: [e0]) rfl]
          at hreq
        exact Except.noConfusion hreq
      · rw [request_of_big_incomplete (op :: db :: 0 :: 0 :: [e0, e1]) rfl]
          at hreq
        exact Except.noConfusion hreq
      · rw [request_of_big_incomplete
            (op :: db :: 0 :: 0 :: [e0, e1, e2]) rfl] at hreq
        exact Except.noConfusion hreq
      · by_cases htake :
            (((e0 + 256 * e1 + 65536 * e2 + 16777216 * e3) * 4) %
                4294967296 + 4294967288) % 4294967296 ≤ rest8.length
        · have hbig : request_big
              (op :: db :: 0 :: 0 :: e0 :: e1 :: e2 :: e3 :: rest8) =
              .ok (rest8.drop
                ((((e0 + 256 * e1 + 65536 * e2 + 16777216 * e3) * 4) %
                    4294967296 + 4294967288) % 4294967296),
                { opcode := op, datab := db,
                  length := (4 * (e0 + 256 * e1 + 65536 * e2 +
                    16777216 * e3)) % 4294967296,
                  data := rest8.take
                    ((((e0 + 256 * e1 + 65536 * e2 + 16777216 * e3) *
                        4) % 4294967296 + 4294967288) %
                      4294967296) }) := by
            rw [request_big_cons, tag00_zeros, pbind_ok, le_u32_cons,
                pbind_ok, takeBytes_of_le _ _ htake, pbind_ok]
          rw [request_of_big_ok _ _ _ hbig] at hreq
          have hhdr :
              hdr.length = (4 * (e0 + 256 * e1 + 65536 * e2 +
                16777216 * e3)) % 4294967296 := by
            have h1 := (Except.ok.injEq _ _).mp hreq
            have h2 := (Prod.mk.injEq _ _ _ _).mp h1
            rw [← h2.2]
          have hrl : rest8.length + 24 < 4294967296 := by
            simp only [List.length_cons] at hlen
            omega
          rw [hhdr]
          omega
        · have hbig : request_big
              (op :: db :: 0 :: 0 :: e0 :: e1 :: e2 :: e3 :: rest8) =
              .error .Incomplete := by
            rw [request_big_cons, tag00_zeros, pbind_ok, le_u32_cons,
                pbind_ok, takeBytes_of_gt _ _ (by omega), pbind_error]
          rw [request_of_big_incomplete _ hbig] at hreq
          exact Except.noConfusion hreq
    · have hbig : request_big (op :: db :: a :: b :: rest4) =
          .error .Error := by
        rw [request_big_cons, tag00_ne a b rest4 hab, pbind_error]
      rw [request_of_big_error _ hbig, request_normal_cons, le_u16_cons,
          pbind_ok] at hreq
      by_cases htake :
          (((a + 256 * b) * 4) % 65536 + 65532) % 65536 ≤ rest4.length
      · rw [takeBytes_of_le _ _ htake, pbind_ok] at hreq
        have hhdr : hdr.length = 4 * (a + 256 * b) := by
          have h1 := (Except.ok.injEq _ _).mp hreq
          have h2 := (Prod.mk.injEq _ _ _ _).mp h1
          rw [← h2.2]
        rw [hhdr]
        have hab2 : 1 ≤ a + 256 * b := by
          rcases Nat.eq_zero_or_pos a with haz | hap
          · rcases Nat.eq_zero_or_pos b with hbz | hbp
            · exact absurd ⟨haz, hbz⟩ hab
            · omega
          · omega
        omega
      · rw [takeBytes_of_gt _ _ (by omega), pbind_error] at hreq
        exact Except.noConfusion hreq

/-- A decomposition of a byte buffer into successive framed requests and
a remaining tail: each listed chunk is exactly the prefix that the
request parser frames at its position (the recorded total length equals
the chunk length and fits the remaining buffer). -/
inductive Frames : List Nat → List (List Nat) → List Nat → Prop where
  | nil (tail : List Nat) : Frames tail [] tail
  | cons (b f : List Nat) (fs : List (List Nat)) (tail rest : List Nat)
      (hdr : Request) (hreq : request b = .ok (rest, hdr))
      (hlen : hdr.length = f.length) (hle : f.length ≤ b.length)
      (hf : f = b.take f.length)
      (hrest : Frames (b.drop f.length) fs tail) : Frames b (f :: fs) tail

/-- A framed decomposition concatenates back to the original buffer. -/
lemma frames_join {b : List Nat} {fs : List (List Nat)} {tail : List Nat}
    (h : Frames b fs tail) : fs.flatten ++ tail = b := by
  induction h with
  | nil t => simp
  | cons b f fs tail rest hdr hreq hlen hle hf hrest ih =>
      simp only [List.flatten_cons, List.append_assoc, ih]
      nth_rewrite 1 [hf]
      exact List.take_append_drop _ _

/-- The filter loop of analyze.rs computes a framed decomposition of its
work buffer: every framed request goes to the accepted output (the
baseline policy allows everything) and the unframeable tail goes to the
rejected output. The length bound keeps the wrapping take counts of the
parser away from the buffer; the fuel bound is satisfied by the fuel
filter_buffer passes. -/
lemma filter_go_spec : ∀ (fuel : Nat) (work acc rej : List Nat),
    work.length + 16 < 4294967296 →
    work.length < 4 * fuel →
    ∃ fs tail, Frames work fs tail ∧
      filter_go fuel work acc rej = (acc ++ fs.flatten, rej ++ tail) := by
  intro fuel
  induction fuel with
  | zero =>
      intro work acc rej h1 h2
      omega
  | succ n ih =>
      intro work acc rej h1 h2
      cases hreq : request work with
      | error e =>
          refine ⟨[], work, Frames.nil work, ?_⟩
          simp [filter_go, hreq]
      | ok p =>
          obtain ⟨rest, hdr⟩ := p
          by_cases hlt : work.length < hdr.length
          · refine ⟨[], work, Frames.nil work, ?_⟩
            simp [filter_go, hreq, hlt]
          · have hle : hdr.length ≤ work.length := by omega
            have h4 := frame_min work rest hdr hreq hle h1
            have hfl : (work.take hdr.length).length = hdr.length := by
              rw [List.length_take]
              exact Nat.min_eq_left hle
            have hstep : filter_go (n + 1) work acc rej =
                filter_go n (work.drop hdr.length)
                  (acc ++ work.take hdr.length) rej := by
              simp only [filter_go, hreq]
              rw [if_neg hlt]
              rw [analyze_allowed]
            obtain ⟨fs, tail, hfr, heq⟩ :=
              ih (work.drop hdr.length) (acc ++ work.take hdr.length) rej
                (by rw [List.length_drop]; omega)
                (by rw [List.length_drop]; omega)
            refine ⟨work.take hdr.length :: fs, tail, ?_, ?_⟩
            · refine Frames.cons work (work.take hdr.length) fs tail rest
                hdr hreq hfl.symm (by rw [hfl]; exact hle) (by rw [hfl])
                ?_
              rw [hfl]
              exact hfr
            · rw [hstep, heq]
              simp [List.append_assoc]

/-- C2: for every input buffer (shorter than the 4 GiB where the u32
take counts of the parser wrap back into range), filter_buffer splits
the buffer into a framed decomposition: the accepted output is the
concatenation of the framed requests, each landing as a contiguous
slice in order, the rejected output is the remaining tail, and the two
together contain every byte of the input in original order. -/
theorem C2_filter_conservation (b : List Nat)
    (hlen : b.length + 16 < 4294967296) :
    ∃ fs tail, Frames b fs tail ∧
      (filter_buffer b).1 = fs.flatten ∧
      (filter_buffer b).2 = tail ∧
      (filter_buffer b).1 ++ (filter_buffer b).2 = b := by
  by_cases hb : b.length = 0
  · have hbe : b = [] := List.length_eq_zero.mp hb
    subst hbe
    exact ⟨[], [], Frames.nil [], by simp [filter_buffer],
      by simp [filter_buffer], by simp [filter_buffer]⟩
  · obtain ⟨fs, tail, hfr, heq⟩ :=
      filter_go_spec (b.length + 1) b [] [] hlen (by omega)
    have hfb : filter_buffer b = (fs.flatten, tail) := by
      unfold filter_buffer
      rw [if_neg hb, heq]
      simp
    refine ⟨fs, tail, hfr, by rw [hfb], by rw [hfb], ?_⟩
    rw [hfb]
    simpa using frames_join hfr

/-- Witness for C2 at a concrete one-request buffer: a 32-byte
InternAtom request (opcode 0x10, length field 8 units). -/
theorem C2_filter_conservation_witness :
    ∃ fs tail,
      Frames [16, 0, 8, 0, 5, 5, 5, 5, 5, 5, 5, 5, 5, 5, 5, 5, 5, 5, 5, 5,
        5, 5, 5, 5, 5, 5, 5, 5, 5, 5, 5, 5] fs tail ∧
      (filter_buffer [16, 0, 8, 0, 5, 5, 5, 5, 5, 5, 5, 5, 5, 5, 5, 5, 5,
        5, 5, 5, 5, 5, 5, 5, 5, 5, 5, 5, 5, 5, 5, 5]).1 = fs.flatten ∧
      (filter_buffer [16, 0, 8, 0, 5, 5, 5, 5, 5, 5, 5, 5, 5, 5, 5, 5, 5,
        5, 5, 5, 5, 5, 5, 5, 5, 5, 5, 5, 5, 5, 5, 5]).2 = tail ∧
      (filter_buffer [16, 0, 8, 0, 5, 5, 5, 5, 5, 5, 5, 5, 5, 5, 5, 5, 5,
        5, 5, 5, 5, 5, 5, 5, 5, 5, 5, 5, 5, 5, 5, 5]).1 ++
        (filter_buffer [16, 0, 8, 0, 5, 5, 5, 5, 5, 5, 5, 5, 5, 5, 5, 5,
          5, 5, 5, 5, 5, 5, 5, 5, 5, 5, 5, 5, 5, 5, 5, 5]).2 =
        [16, 0, 8, 0, 5, 5, 5, 5, 5, 5, 5, 5, 5, 5, 5, 5, 5, 5, 5, 5, 5,
          5, 5, 5, 5, 5, 5, 5, 5, 5, 5, 5] :=
  C2_filter_conservation
    [16, 0, 8, 0, 5, 5, 5, 5, 5, 5, 5, 5, 5, 5, 5, 5, 5, 5, 5, 5, 5, 5,
      5, 5, 5, 5, 5, 5, 5, 5, 5, 5] (by decide)

/-- C3: whenever the remaining work buffer does not frame (the parser
fails with Incomplete or a recoverable error, or the recorded length
exceeds the remaining bytes), the filter loop appends all remaining
bytes to the rejected output and stops, leaving the previously accepted
and rejected outputs unchanged. -/
theorem C3_reject_remainder (fuel : Nat) (work acc rej : List Nat)
    (hfuel : 0 < fuel)
    (hbad : (∃ e, request work = .error e) ∨
      (∃ rest hdr, request work = .ok (rest, hdr) ∧
        work.length < hdr.length)) :
    filter_go fuel work acc rej = (acc, rej ++ work) := by
  rcases fuel with _ | n
  · omega
  · rcases hbad with ⟨e, he⟩ | ⟨rest, hdr, hok, hlt⟩
    · simp [filter_go, he]
    · simp [filter_go, hok, hlt]

/-- Witness for C3 at the truncated-tail scenario of the specification:
20 bytes whose header declares a total length of 32 end up entirely in
the rejected output, with nothing accepted. -/
theorem C3_reject_remainder_witness :
    filter_buffer [1, 0, 8, 0, 5, 5, 5, 5, 5, 5, 5, 5, 5, 5, 5, 5, 5, 5,
      5, 5] = ([], [1, 0, 8, 0, 5, 5, 5, 5, 5, 5, 5, 5, 5, 5, 5, 5, 5, 5,
      5, 5]) := by
  have h := C3_reject_remainder 21
    [1, 0, 8, 0, 5, 5, 5, 5, 5, 5, 5, 5, 5, 5, 5, 5, 5, 5, 5, 5] [] []
    (by decide) (Or.inl ⟨NomErr.Incomplete, rfl⟩)
  simpa [filter_buffer] using h

/-- C1 counterexample: the claim says a connection whose peer PID is a
member of the PID set has its bytes routed through the filter and a
non-member passes verbatim. The code tests the opposite polarity
(filtering runs when the PID is NOT contained in the vector): with the
set holding 5, peer PID 5 is written upstream verbatim even though the
filter pipeline would have accepted nothing of this slice, and peer
PID 7 (not a member) is filtered. -/
theorem C1_cex :
    (client_message_step [5] 5 [1, 0, 8, 0, 5, 5, 5, 5, 5, 5, 5, 5, 5, 5,
      5, 5, 5, 5, 5, 5] 20 false).1 =
      [1, 0, 8, 0, 5, 5, 5, 5, 5, 5, 5, 5, 5, 5, 5, 5, 5, 5, 5, 5] ∧
    (filter_buffer [1, 0, 8, 0, 5, 5, 5, 5, 5, 5, 5, 5, 5, 5, 5, 5, 5, 5,
      5, 5]).1 = [] ∧
    (client_message_step [5] 7 [1, 0, 8, 0, 5, 5, 5, 5, 5, 5, 5, 5, 5, 5,
      5, 5, 5, 5, 5, 5] 20 false).1 = [] ∧
    [1, 0, 8, 0, 5, 5, 5, 5, 5, 5, 5, 5, 5, 5, 5, 5, 5, 5, 5, 5] ≠
      ([] : List Nat) := by
  refine ⟨?_, ?_, ?_, by decide⟩ <;> decide

/-- C1 amended: the client-to-server bytes are routed through the
filter pipeline exactly when the peer PID is NOT a member of the PID
vector; a connection whose peer PID is a member has its bytes written
upstream verbatim. -/
theorem C1_filter_on_nonmember (pids : List Nat) (pid : Nat)
    (buffer : List Nat) (read : Nat) (hasDump : Bool) :
    (pid ∈ pids →
      (client_message_step pids pid buffer read hasDump).1 =
        buffer.take read) ∧
    (pid ∉ pids →
      (client_message_step pids pid buffer read hasDump).1 =
        (filter_buffer (buffer.take read)).1) := by
  constructor
  · intro hp
    simp [client_message_step, hp]
  · intro hp
    simp [client_message_step, hp]

/-- Witness for the C1 amended statement: a member PID passes verbatim,
a non-member PID gets the filtered (accepted) slice. -/
theorem C1_filter_on_nonmember_witness :
    (client_message_step [5] 5 [1, 0, 8, 0, 5, 5, 5, 5, 5, 5, 5, 5, 5, 5,
      5, 5, 5, 5, 5, 5] 20 false).1 =
      [1, 0, 8, 0, 5, 5, 5, 5, 5, 5, 5, 5, 5, 5, 5, 5, 5, 5, 5,
        5].take 20 ∧
    (client_message_step [5] 7 [1, 0, 8, 0, 5, 5, 5, 5, 5, 5, 5, 5, 5, 5,
      5, 5, 5, 5, 5, 5] 20 false).1 =
      (filter_buffer ([1, 0, 8, 0, 5, 5, 5, 5, 5, 5, 5, 5, 5, 5, 5, 5, 5,
        5, 5, 5].take 20)).1 :=
  ⟨(C1_filter_on_nonmember [5] 5 [1, 0, 8, 0, 5, 5, 5, 5, 5, 5, 5, 5, 5,
      5, 5, 5, 5, 5, 5, 5] 20 false).1 (by decide),
   (C1_filter_on_nonmember [5] 7 [1, 0, 8, 0, 5, 5, 5, 5, 5, 5, 5, 5, 5,
      5, 5, 5, 5, 5, 5, 5] 20 false).2 (by decide)⟩

/-- C8: evaluation of the code at the failing input. For a filtered
connection with a dump file configured, the bytes written to the dump
file are the ENTIRE read buffer array (here all 32 bytes, including the
12 bytes beyond the read length), not the rejected slice (here the
20-byte read slice, all of which the filter rejected); the upstream
write does receive only the accepted slice. The source binds the
rejected slice to a variable it never uses and dumps the whole buffer
instead. -/
theorem C8_dump_whole_buffer :
    (client_message_step [] 0 [1, 0, 8, 0, 6, 6, 6, 6, 6, 6, 6, 6, 6, 6,
      6, 6, 6, 6, 6, 6, 6, 6, 6, 6, 6, 6, 6, 6, 6, 6, 6, 6] 20 true).2 =
      [1, 0, 8, 0, 6, 6, 6, 6, 6, 6, 6, 6, 6, 6, 6, 6, 6, 6, 6, 6, 6, 6,
        6, 6, 6, 6, 6, 6, 6, 6, 6, 6] ∧
    (client_message_step [] 0 [1, 0, 8, 0, 6, 6, 6, 6, 6, 6, 6, 6, 6, 6,
      6, 6, 6, 6, 6, 6, 6, 6, 6, 6, 6, 6, 6, 6, 6, 6, 6, 6] 20 true).1 =
      (filter_buffer ([1, 0, 8, 0, 6, 6, 6, 6, 6, 6, 6, 6, 6, 6, 6, 6, 6,
        6, 6, 6, 6, 6, 6, 6, 6, 6, 6, 6, 6, 6, 6, 6].take 20)).1 ∧
    (filter_buffer ([1, 0, 8, 0, 6, 6, 6, 6, 6, 6, 6, 6, 6, 6, 6, 6, 6,
      6, 6, 6, 6, 6, 6, 6, 6, 6, 6, 6, 6, 6, 6, 6].take 20)).2 =
      [1, 0, 8, 0, 6, 6, 6, 6, 6, 6, 6, 6, 6, 6, 6, 6, 6, 6, 6, 6, 6, 6,
        6, 6, 6, 6, 6, 6, 6, 6, 6, 6].take 20 ∧
    [1, 0, 8, 0, 6, 6, 6, 6, 6, 6, 6, 6, 6, 6, 6, 6, 6, 6, 6, 6, 6, 6,
      6, 6, 6, 6, 6, 6, 6, 6, 6, 6] ≠
      [1, 0, 8, 0, 6, 6, 6, 6, 6, 6, 6, 6, 6, 6, 6, 6, 6, 6, 6, 6, 6, 6,
        6, 6, 6, 6, 6, 6, 6, 6, 6, 6].take 20 := by
  refine ⟨?_, ?_, ?_, by decide⟩ <;> decide

/-- C9: over a registry whose lines are all well formed (at least two
tokens and a parsing pid), cleanup_old_sockets keeps exactly the lines
whose pid is still alive or whose dead-pid socket failed to unlink with
an error other than NotFound, and attempts exactly one unlink per
dead-pid line, in order. -/
theorem C9_cleanup_dead_pids (env : CleanupEnv)
    (lines : List (List String))
    (hwf : ∀ l ∈ lines, (linePid l).isSome) :
    cleanup_old_sockets env lines =
      (lines.filter (keepLine env),
       (lines.filter (deadLine env)).map linePath) := by
  induction lines with
  | nil => rfl
  | cons l rest ih =>
      have hl := hwf l (by simp)
      have hr : ∀ x ∈ rest, (linePid x).isSome := by
        intro x hx
        exact hwf x (by simp [hx])
      rcases l with _ | ⟨t0, _ | ⟨t1, lrest⟩⟩
      · simp [linePid] at hl
      · simp [linePid] at hl
      · rcases hp : parsePid t0 with _ | pid
        · rw [linePid] at hl
          rw [hp] at hl
          simp at hl
        · cases halive : env.alive pid
          · cases hunlink : env.unlink t1 <;>
              simp [cleanup_old_sockets, hp, halive, hunlink, ih hr,
                keepLine, deadLine, linePid, linePath]
          · simp [cleanup_old_sockets, hp, halive, ih hr, keepLine,
              deadLine, linePid, linePath]

/-- Concrete environment for the registry witnesses: only pid 1 is
alive, every unlink succeeds. -/
def cleanupTestEnv : CleanupEnv where
  alive := fun p => p == 1
  unlink := fun _x => UnlinkResult.ok

/-- Witness for C9: the line of live pid 1 is kept, the line of dead
pid 2 is dropped and its socket path is unlinked. -/
theorem C9_cleanup_dead_pids_witness :
    cleanup_old_sockets cleanupTestEnv [["1", "/a"], ["2", "/b"]] =
      ([["1", "/a"]], ["/b"]) := by
  rw [C9_cleanup_dead_pids cleanupTestEnv [["1", "/a"], ["2", "/b"]]
    (by decide)]
  decide

/-- C10: the first registry line with fewer than two whitespace tokens
stops the scan: that line and every line after it (including lines with
a live pid) are dropped from the rewritten registry, and no unlink is
attempted for them. -/
theorem C10_short_line_stops (env : CleanupEnv)
    (pre : List (List String)) (bad : List String)
    (post : List (List String))
    (hpre : ∀ l ∈ pre, 2 ≤ l.length)
    (hbad : bad.length < 2) :
    cleanup_old_sockets env (pre ++ bad :: post) =
      cleanup_old_sockets env pre := by
  induction pre with
  | nil =>
      rcases bad with _ | ⟨t, _ | ⟨t2, r⟩⟩
      · rfl
      · rfl
      · exact absurd hbad (by simp only [List.length_cons]; omega)
  | cons l pre2 ih =>
      have hl := hpre l (by simp)
      have hp2 : ∀ x ∈ pre2, 2 ≤ x.length := by
        intro x hx
        exact hpre x (by simp [hx])
      rcases l with _ | ⟨t0, _ | ⟨t1, lrest⟩⟩
      · simp at hl
      · simp at hl
      · rcases hp : parsePid t0 with _ | pid
        · simp [cleanup_old_sockets, hp, ih hp2]
        · cases halive : env.alive pid
          · cases hunlink : env.unlink t1 <;>
              simp [cleanup_old_sockets, hp, halive, hunlink, ih hp2]
          · simp [cleanup_old_sockets, hp, halive, ih hp2]

/-- Witness for C10: a one-token line stops the scan, dropping itself
and the following live-pid line. -/
theorem C10_short_line_stops_witness :
    cleanup_old_sockets cleanupTestEnv
        [["1", "/a"], ["x"], ["2", "/b"]] =
      cleanup_old_sockets cleanupTestEnv [["1", "/a"]] :=
  C10_short_line_stops cleanupTestEnv [["1", "/a"]] ["x"] [["2", "/b"]]
    (by decide) (by decide)

end Rustywin
